import Mathlib

/-!
Verification development for the osu-searcher beatmap core
(`src/model/beatmap.py`): the filename parser `BeatmapManager._parse_beatmap`,
the in-memory index operations `load`, `filter` and `check` of
`BeatmapManager`, and the condition matching of `Beatmap.__contains__`.

Python strings are modelled as Lean `String`; the Python string operations
used by the source (`strip`, `lower`, `rsplit(' - ', 1)`, `split(' ', 1)`,
substring membership `in`, lexicographic `<`, `int(...)` parsing) are modelled
over the ASCII fragment, which covers every behaviour the source relies on.
Fallible Python code (raising `TypeError`, `ValueError`, `PermissionError`)
is modelled with `Except Unit`.
-/

namespace OsuSearcher

/-- ASCII fragment of the whitespace removed by Python `str.strip()`:
space, tab, newline, carriage return, vertical tab, form feed. -/
def isPySpace (c : Char) : Bool :=
  c = ' ' || c = '\t' || c = '\n' || c = '\r' || c = '\x0b' || c = '\x0c'

/-- Python `str.strip()` with no argument: drop leading and trailing
whitespace characters. -/
def pyStrip (s : String) : String :=
  ⟨((s.data.dropWhile isPySpace).reverse.dropWhile isPySpace).reverse⟩

/-- Python `str.lower()` (ASCII fragment): lowercase every character. -/
def pyLower (s : String) : String := ⟨s.data.map Char.toLower⟩

/-- Contiguous-sublist test on character lists; `containsSub n h` holds
iff `n` occurs as a contiguous run inside `h` (true for `n = []`). -/
def containsSub (needle : List Char) : List Char → Bool
  | [] => needle.isEmpty
  | c :: rest => needle.isPrefixOf (c :: rest) || containsSub needle rest

/-- Python substring membership `needle in hay` on strings. -/
def strIn (needle hay : String) : Bool :=
  containsSub needle.data hay.data

/-- The separator `" - "` of `rsplit(' - ', 1)`, as a character list. -/
def sepChars : List Char := [' ', '-', ' ']

/-- Python `s.rsplit(' - ', 1)` restricted to the split position: returns
`some (pre, post)` where `pre ++ " - " ++ post = s` and the occurrence used
is the last one, or `none` when `" - "` does not occur in `s`.
The recursion prefers an occurrence found further right (in `rest`) and only
then looks at the current position, which is exactly the last-occurrence
tie-break of `rsplit` with `maxsplit = 1`. -/
def rsplitLast : List Char → Option (List Char × List Char)
  | [] => none
  | c :: rest =>
    match rsplitLast rest with
    | some (pre, post) => some (c :: pre, post)
    | none =>
      if sepChars.isPrefixOf (c :: rest) then some ([], (c :: rest).drop 3)
      else none

/-- Python `s.split(' ', 1)` restricted to the split position: returns
`some (pre, post)` splitting at the first `' '`, or `none` when `s`
contains no space. -/
def splitFirstSpace : List Char → Option (List Char × List Char)
  | [] => none
  | c :: rest =>
    if c = ' ' then some ([], rest)
    else
      match splitFirstSpace rest with
      | some (pre, post) => some (c :: pre, post)
      | none => none

/-- The `Beatmap` dataclass of the source: three frozen string fields.
The dataclass also stores `_artist_lower` / `_name_lower` caches computed
in `__post_init__`; since the fields are frozen, those caches are modelled
as the derived functions `Beatmap.artistLower` / `Beatmap.nameLower`. -/
structure Beatmap where
  sid : String := ""
  artist : String := ""
  name : String := ""
deriving DecidableEq, Repr

/-- The `_artist_lower` cache: `self.artist.lower()` computed in
`Beatmap.__post_init__`. -/
def Beatmap.artistLower (b : Beatmap) : String := pyLower b.artist

/-- The `_name_lower` cache: `self.name.lower()` computed in
`Beatmap.__post_init__`. -/
def Beatmap.nameLower (b : Beatmap) : String := pyLower b.name

/-- The `ConditionType` enum of the source, with values
`'sid'`, `'artist'`, `'name'`. -/
inductive ConditionType where
  | sid : ConditionType
  | artist : ConditionType
  | name : ConditionType
deriving DecidableEq, Repr

/-- `getattr(self, k.value)` for `k : ConditionType`: the enum values name
the original-case dataclass fields `sid`, `artist`, `name` — not the
lowercase caches `_artist_lower` / `_name_lower`. -/
def Beatmap.getattrField (b : Beatmap) : ConditionType → String
  | .sid => b.sid
  | .artist => b.artist
  | .name => b.name

/-- A key of the dict passed to `Beatmap.__contains__`: either a genuine
`ConditionType` member, or (`invalid`) any other Python object, which the
source rejects with `TypeError`. -/
inductive DictKey where
  | ctype : ConditionType → DictKey
  | invalid : DictKey
deriving DecidableEq, Repr

/-- A value of the dict passed to `Beatmap.__contains__`: either a Python
`str`, or (`invalid`) any non-string object, which the source rejects with
`TypeError`. -/
inductive DictVal where
  | str : String → DictVal
  | invalid : DictVal
deriving DecidableEq, Repr

/-- The `Condition` argument of `Beatmap.__contains__` /
`BeatmapManager.filter`: a keyword string, a dict of key/value pairs, or
(`other`) any value that is neither a `str` nor a `dict`. -/
inductive Condition where
  | str : String → Condition
  | dict : List (DictKey × DictVal) → Condition
  | other : Condition

/-- Whether a dict key fails the `isinstance(k, ConditionType)` check. -/
def DictKey.isBadKey : DictKey → Bool
  | .ctype _ => false
  | .invalid => true

/-- Whether a dict value fails the `isinstance(v, str)` check. -/
def DictVal.isBadVal : DictVal → Bool
  | .str _ => false
  | .invalid => true

/-- One conjunct of the dict branch of `Beatmap.__contains__`:
`v.lower() in getattr(self, k.value)`.  Entries with an invalid key or
value never reach this point in the source (the `TypeError` guards run
first), so those cases are given an arbitrary value. -/
def Beatmap.entryMatches (b : Beatmap) : DictKey × DictVal → Bool
  | (.ctype c, .str v) => strIn (pyLower v) (b.getattrField c)
  | _ => false

/-- `Beatmap.__contains__`: for a string `s`,
`any(s.lower() in attr for attr in (self.sid, self._artist_lower,
self._name_lower))` — note the keyword is lowercased but `sid` is compared
in its original case; for a dict, a `TypeError` (modelled `.error ()`) if
some key is not a `ConditionType` or some value is not a `str`, else
`all(v.lower() in getattr(self, k.value) for k, v in s.items())`;
for anything else, a `TypeError`. -/
def Beatmap.containsCond (b : Beatmap) : Condition → Except Unit Bool
  | .str s =>
    .ok ([b.sid, b.artistLower, b.nameLower].any (fun attr => strIn (pyLower s) attr))
  | .dict entries =>
    if entries.any (fun e => e.1.isBadKey) then .error ()
    else if entries.any (fun e => e.2.isBadVal) then .error ()
    else .ok (entries.all (fun e => b.entryMatches e))
  | .other => .error ()

/-- Decidable equality for the `Except Unit` results of the modelled
fallible operations, so concrete runs can be checked by `decide`. -/
instance {β : Type} [DecidableEq β] : DecidableEq (Except Unit β) := fun a b =>
  match a, b with
  | .error _, .error _ => isTrue rfl
  | .error _, .ok _ => isFalse (fun h => Except.noConfusion h)
  | .ok _, .error _ => isFalse (fun h => Except.noConfusion h)
  | .ok x, .ok y =>
    if h : x = y then isTrue (by rw [h])
    else isFalse (fun hc => h (by injection hc))

namespace BeatmapManager

/-- `BeatmapManager._parse_beatmap`.  The Python body is

    tmp, *name = filename.strip().rsplit(' - ', 1)
    sid, *artist = tmp.split(' ', 1)
    artist = artist[0].strip() if artist else ''
    name = name[0] if name else ''
    return Beatmap(sid, artist, name)

wrapped in `try ... except ValueError: return None`.  `rsplit` / `split`
with a non-empty separator and starred unpacking of their non-empty result
never raise `ValueError`, and neither does the `Beatmap` constructor, so the
`except` branch is unreachable and the function always returns a `Beatmap`;
the `Option` return type mirrors the declared `Beatmap | None` signature. -/
def _parse_beatmap (filename : String) : Option Beatmap :=
  let stripped := pyStrip filename
  let (tmp, nameOpt) :=
    match rsplitLast stripped.data with
    | some (pre, post) => ((⟨pre⟩ : String), some (⟨post⟩ : String))
    | none => (stripped, none)
  let (sid, artistOpt) :=
    match splitFirstSpace tmp.data with
    | some (pre, post) => ((⟨pre⟩ : String), some (⟨post⟩ : String))
    | none => (tmp, none)
  let artist := match artistOpt with
    | some a => pyStrip a
    | none => ""
  let name := match nameOpt with
    | some n => n
    | none => ""
  some ⟨sid, artist, name⟩

/-- The comparison driving Python `sorted` on `Beatmap`s: `sorted` performs
a stable ascending sort using `Beatmap.__lt__`, i.e. `a` may precede `b`
iff `not (b.name < a.name)` under Python's lexicographic string `<`. -/
def beatmapLe (a b : Beatmap) : Bool := !(decide (b.name < a.name))

/-- Python `sorted(...)` on a list of `Beatmap`s: a stable ascending sort
by `Beatmap.__lt__`, which compares the `name` fields. -/
def sortBeatmaps (l : List Beatmap) : List Beatmap := l.mergeSort beatmapLe

/-- The outcome of the two OS calls `os.path.isdir(path)` and
`os.scandir(path)` for the path passed to `load`, at call time.
`scandir = .error ()` models an OS error raised by the listing
(e.g. `PermissionError` on an existing but unreadable directory). -/
structure PathEnv where
  isdir : Bool
  scandir : Except Unit (List String)

/-- Python truthiness of the `path` argument (`None` and `''` are falsy). -/
def pathTruthy : Option String → Bool
  | none => false
  | some s => !s.isEmpty

/-- `IOUtils.is_valid_path` (`src/ui/__init__.py`):
`return path and os.path.isdir(path)`. -/
def is_valid_path (path : Option String) (env : PathEnv) : Bool :=
  pathTruthy path && env.isdir

/-- `BeatmapManager.load`: returns without touching the index when
`is_valid_path` fails or when the directory listing is empty; otherwise
replaces `self.beatmaps` with the sorted parses of the listed names
(`sorted(filter(None, map(self._parse_beatmap, filenames)))`).
The result is the value of `self.beatmaps` after the call; `.error ()`
models an exception escaping from `os.scandir`. -/
def load (prior : List Beatmap) (path : Option String) (env : PathEnv) :
    Except Unit (List Beatmap) :=
  if is_valid_path path env = false then .ok prior
  else
    match env.scandir with
    | .error e => .error e
    | .ok filenames =>
      if filenames.isEmpty then .ok prior
      else .ok (sortBeatmaps (filenames.filterMap _parse_beatmap))

/-- `BeatmapManager.filter`: the list comprehension
`[beatmap for beatmap in self.beatmaps if condition in beatmap]`;
an exception raised by `Beatmap.__contains__` propagates out. -/
def filter (condition : Condition) : List Beatmap → Except Unit (List Beatmap)
  | [] => .ok []
  | b :: rest =>
    match b.containsCond condition with
    | .error e => .error e
    | .ok m =>
      match filter condition rest with
      | .error e => .error e
      | .ok l => .ok (if m then b :: l else l)

/-- ASCII decimal digit test, as used by Python `int(...)` parsing. -/
def isPyDigit (c : Char) : Bool := '0' ≤ c && c ≤ '9'

/-- Continuation of a digit group in a Python integer literal: further
digits, with single underscores allowed between digits. -/
def digitsRest : List Char → Bool
  | [] => true
  | '_' :: c :: rest => isPyDigit c && digitsRest rest
  | c :: rest => isPyDigit c && digitsRest rest

/-- A non-empty run of ASCII digits with single underscores allowed
between digits (`"1_000"` is accepted, `"_1"`, `"1_"`, `"1__0"` are not). -/
def digitsUnderscore : List Char → Bool
  | [] => false
  | '_' :: _ => false
  | c :: rest => isPyDigit c && digitsRest rest

/-- Whether Python `int(s)` succeeds on the string `s` (ASCII fragment):
optional surrounding whitespace, an optional sign, then a non-empty digit
run with single underscores allowed between digits. -/
def pyIntParses (s : String) : Bool :=
  match (pyStrip s).data with
  | '+' :: rest => digitsUnderscore rest
  | '-' :: rest => digitsUnderscore rest
  | l => digitsUnderscore l

/-- Number of records of the index whose `sid` equals `s` — the count that
`Counter(self.beatmaps)` associates with a representative of `sid` `s`,
since `Beatmap.__eq__` compares the `sid` strings. -/
def countSid (bs : List Beatmap) (s : String) : Nat :=
  (bs.filter (fun b => b.sid = s)).length

/-- First occurrences of each `sid`, in first-seen order: the key sequence
of `Counter(self.beatmaps)` (a Python dict keeps the first-inserted key as
the representative of its equality class and iterates keys in insertion
order). `seen` accumulates the `sid`s already represented. -/
def dedupBySid (seen : List String) : List Beatmap → List Beatmap
  | [] => []
  | b :: rest =>
    if b.sid ∈ seen then dedupBySid seen rest
    else b :: dedupBySid (b.sid :: seen) rest

/-- `BeatmapManager.check`:
`[beatmap for beatmap, count in Counter(self.beatmaps).items() if count > 1]`.
Building the `Counter` hashes every record via `Beatmap.__hash__`, which is
`hash(int(self.sid))`, so a `ValueError` (modelled `.error ()`) escapes as
soon as some record's `sid` is not accepted by `int(...)`.  `Beatmap.__eq__`
compares `sid` strings and is consistent with the hash (equal `sid` strings
give equal `int` values), so the `Counter` groups records by `sid` equality
with first-seen representatives in first-seen order. -/
def check (bs : List Beatmap) : Except Unit (List Beatmap) :=
  if bs.all (fun b => pyIntParses b.sid) then
    .ok ((dedupBySid [] bs).filter (fun b => 1 < countSid bs b.sid))
  else .error ()

end BeatmapManager

end OsuSearcher

/-! Helper lemmas about the modelled Python string operations. -/

namespace OsuSearcher

theorem containsSub_iff_occurs (n l : List Char) :
    containsSub n l = true ↔ n <:+: l := by
  induction l with
  | nil => simp [containsSub, List.isEmpty_iff, List.infix_nil]
  | cons c rest ih =>
    simp [containsSub, List.isPrefixOf_iff_prefix, ih, List.infix_cons_iff]

theorem containsSub_eq_false_iff (n l : List Char) :
    containsSub n l = false ↔ ¬ n <:+: l := by
  rw [← containsSub_iff_occurs n l]
  cases containsSub n l <;> simp

theorem rsplitLast_eq_none_iff (l : List Char) :
    rsplitLast l = none ↔ containsSub sepChars l = false := by
  induction l with
  | nil => simp [rsplitLast, containsSub, sepChars]
  | cons c rest ih =>
    cases h : rsplitLast rest with
    | some pr =>
      have hrest : containsSub sepChars rest = true := by
        cases hcs : containsSub sepChars rest with
        | true => rfl
        | false => rw [ih.mpr hcs] at h; exact Option.noConfusion h
      simp [rsplitLast, containsSub, h, hrest]
    | none =>
      have hrest : containsSub sepChars rest = false := ih.mp h
      cases hp : sepChars.isPrefixOf (c :: rest) with
      | true => simp [rsplitLast, containsSub, h, hrest, hp]
      | false => simp [rsplitLast, containsSub, h, hrest, hp]

theorem rsplitLast_cons (c : Char) (rest : List Char) :
    rsplitLast (c :: rest) =
      match rsplitLast rest with
      | some (pre, post) => some (c :: pre, post)
      | none =>
        if sepChars.isPrefixOf (c :: rest) then some ([], (c :: rest).drop 3)
        else none := rfl

theorem rsplitLast_append (a b : List Char)
    (hb : containsSub sepChars ('-' :: ' ' :: b) = false) :
    rsplitLast (a ++ sepChars ++ b) = some (a, b) := by
  induction a with
  | nil =>
    have h1 : rsplitLast ('-' :: ' ' :: b) = none :=
      (rsplitLast_eq_none_iff _).mpr hb
    show rsplitLast (' ' :: '-' :: ' ' :: b) = some ([], b)
    rw [rsplitLast_cons, h1]
    simp [sepChars, List.isPrefixOf]
  | cons c a' ih =>
    simp only [List.cons_append]
    rw [rsplitLast_cons, ih]

theorem splitFirstSpace_append (a b : List Char) (ha : ' ' ∉ a) :
    splitFirstSpace (a ++ ' ' :: b) = some (a, b) := by
  induction a with
  | nil => simp [splitFirstSpace]
  | cons c a' ih =>
    have hc : ¬ c = ' ' := fun h => ha (by simp [h])
    have ha' : ' ' ∉ a' := fun h => ha (List.mem_cons_of_mem c h)
    simp [splitFirstSpace, hc, ih ha']

theorem dropWhile_eq_self_of_headD (m : List Char)
    (hm : isPySpace (m.headD 'x') = false) :
    m.dropWhile isPySpace = m := by
  cases m with
  | nil => rfl
  | cons c rest =>
    simp only [List.headD] at hm
    simp [List.dropWhile_cons, hm]

theorem pyStrip_eq_self (l : List Char)
    (h1 : isPySpace (l.headD 'x') = false)
    (h2 : isPySpace (l.getLastD 'x') = false) :
    pyStrip ⟨l⟩ = ⟨l⟩ := by
  have hfront : l.dropWhile isPySpace = l := dropWhile_eq_self_of_headD l h1
  have hrevD : l.reverse.headD 'x' = l.getLastD 'x' := by
    rw [List.headD_eq_head?, List.head?_reverse, List.getLastD_eq_getLast?]
  have hback : l.reverse.dropWhile isPySpace = l.reverse :=
    dropWhile_eq_self_of_headD l.reverse (by rw [hrevD]; exact h2)
  simp [pyStrip, hfront, hback]

theorem pyStrip_data_occurs (s : String) : (pyStrip s).data <:+: s.data := by
  have ht : s.data.dropWhile isPySpace <:+ s.data := List.dropWhile_suffix _
  have hu : (s.data.dropWhile isPySpace).reverse.dropWhile isPySpace <:+
      (s.data.dropWhile isPySpace).reverse := List.dropWhile_suffix _
  have hu' : ((s.data.dropWhile isPySpace).reverse.dropWhile isPySpace).reverse <+:
      s.data.dropWhile isPySpace := by
    rw [← List.reverse_suffix]
    simpa using hu
  exact hu'.isInfix.trans ht.isInfix

end OsuSearcher

namespace OsuSearcher

theorem headD_append_left (l r : List Char) (hl : l ≠ []) (d : Char) :
    (l ++ r).headD d = l.headD d := by
  cases l with
  | nil => exact absurd rfl hl
  | cons c t => rfl

theorem getLastD_append_right (l r : List Char) (hr : r ≠ []) (d : Char) :
    (l ++ r).getLastD d = r.getLastD d := by
  cases hr' : r.getLast? with
  | none => exact absurd (List.getLast?_eq_none_iff.mp hr') hr
  | some x =>
    simp [List.getLastD_eq_getLast?, List.getLast?_append, hr']

theorem pyStrip_eq_self_str (s : String)
    (h1 : isPySpace (s.data.headD 'x') = false)
    (h2 : isPySpace (s.data.getLastD 'x') = false) :
    pyStrip s = s := by
  cases s with
  | mk l => exact pyStrip_eq_self l h1 h2

theorem data_ne_nil_of_ne_empty (s : String) (h : s ≠ "") : s.data ≠ [] := by
  intro hd
  apply h
  cases s with
  | mk l => cases hd; rfl

end OsuSearcher

namespace OsuSearcher.BeatmapManager

/-- C1 (amended): for a filename assembled as `<id> <creator> - <title>`
where `id` is non-empty, starts with a non-whitespace character and contains
no space, and `title` is non-empty, ends with a non-whitespace character and
contains no later (possibly overlapping) occurrence of the `" - "` separator,
`_parse_beatmap` splits at the last `" - "` and the head at the first space
and returns exactly `id`, the whitespace-stripped `creator`, and `title`
taken verbatim: only the creator component is stripped (besides the strip of
the whole filename), the title is not. -/
theorem parse_wellformed (id creator title : String)
    (hid0 : id ≠ "")
    (hid1 : isPySpace (id.data.headD 'x') = false)
    (hid2 : ' ' ∉ id.data)
    (ht0 : title ≠ "")
    (ht1 : isPySpace (title.data.getLastD 'x') = false)
    (ht2 : containsSub sepChars ('-' :: ' ' :: title.data) = false) :
    _parse_beatmap (id ++ " " ++ creator ++ " - " ++ title) =
      some ⟨id, pyStrip creator, title⟩ := by
  have hid_ne : id.data ≠ [] := data_ne_nil_of_ne_empty id hid0
  have ht_ne : title.data ≠ [] := data_ne_nil_of_ne_empty title ht0
  have hdata : (id ++ " " ++ creator ++ " - " ++ title).data
      = (id.data ++ ' ' :: creator.data) ++ sepChars ++ title.data := by
    simp [String.data_append, sepChars]
  have hA_ne : id.data ++ ' ' :: creator.data ≠ [] := by simp
  have hAS_ne : (id.data ++ ' ' :: creator.data) ++ sepChars ≠ [] := by
    simp [sepChars]
  have h1 : isPySpace ((id ++ " " ++ creator ++ " - " ++ title).data.headD 'x')
      = false := by
    rw [hdata, headD_append_left _ _ hAS_ne, headD_append_left _ _ hA_ne,
      headD_append_left _ _ hid_ne]
    exact hid1
  have h2 : isPySpace ((id ++ " " ++ creator ++ " - " ++ title).data.getLastD 'x')
      = false := by
    rw [hdata, getLastD_append_right _ _ ht_ne]
    exact ht1
  have hstrip : pyStrip (id ++ " " ++ creator ++ " - " ++ title)
      = id ++ " " ++ creator ++ " - " ++ title :=
    pyStrip_eq_self_str _ h1 h2
  have hr : rsplitLast ((id.data ++ ' ' :: creator.data) ++ sepChars ++ title.data)
      = some (id.data ++ ' ' :: creator.data, title.data) :=
    rsplitLast_append _ _ ht2
  have hs : splitFirstSpace (id.data ++ ' ' :: creator.data)
      = some (id.data, creator.data) :=
    splitFirstSpace_append _ _ hid2
  simp only [_parse_beatmap, hstrip, hdata, hr, hs]

end OsuSearcher.BeatmapManager

namespace OsuSearcher.BeatmapManager

/-- C1 witness: `parse_wellformed` applied to the concrete decomposition
`id = "123"`, `creator = " DJ Okawari "`, `title = "Flower Dance"`; the
creator component comes back whitespace-stripped. -/
theorem parse_wellformed_witness :
    (("123" : String) ≠ "" ∧ isPySpace (("123" : String).data.headD 'x') = false ∧
      ' ' ∉ ("123" : String).data ∧ ("Flower Dance" : String) ≠ "" ∧
      isPySpace (("Flower Dance" : String).data.getLastD 'x') = false ∧
      containsSub sepChars ('-' :: ' ' :: ("Flower Dance" : String).data) = false) ∧
    _parse_beatmap ("123" ++ " " ++ " DJ Okawari " ++ " - " ++ "Flower Dance")
      = some ⟨"123", pyStrip " DJ Okawari ", "Flower Dance"⟩ :=
  ⟨⟨by decide, by decide, by decide, by decide, by decide, by decide⟩,
    parse_wellformed "123" " DJ Okawari " "Flower Dance"
      (by decide) (by decide) (by decide) (by decide) (by decide) (by decide)⟩

/-- C1 counterexample: on the filename `"1 a -  t"` (of the form
`<id> <creator> - <title>` with components `"1"`, `"a"`, `" t"`), the source
returns the title component `" t"` verbatim; the claim demands the
whitespace-stripped `"t"`, so the returned record differs from the claimed
one in its title field. -/
theorem parse_title_not_stripped :
    _parse_beatmap "1 a -  t" = some ⟨"1", "a", " t"⟩ ∧
    pyStrip " t" = "t" ∧
    _parse_beatmap "1 a -  t" ≠ some ⟨"1", "a", "t"⟩ := by
  refine ⟨by decide, by decide, by decide⟩

end OsuSearcher.BeatmapManager

namespace OsuSearcher.BeatmapManager

/-- C2 (amended): a filename without the `" - "` separator is not a parse
failure.  `rsplit(' - ', 1)` returns the one-element list `[filename]`, the
starred unpacking absorbs it without raising, and `_parse_beatmap` returns a
record whose title is `""` (id and creator come from splitting the stripped
filename at its first space).  `load` therefore includes the record in the
index instead of skipping it, and `load` raises nothing as long as the
directory listing itself is readable. -/
theorem parse_no_sep_returns_record (s : String)
    (hs : strIn " - " s = false) :
    (∃ b, _parse_beatmap s = some b ∧ b.name = "") ∧
    (∀ (prior : List Beatmap) (path : Option String) (env : PathEnv)
      (fs : List String), env.scandir = .ok fs → s ∈ fs →
      is_valid_path path env = true →
      ∃ l, load prior path env = .ok l ∧
        ∃ b, _parse_beatmap s = some b ∧ b ∈ l) ∧
    (∀ (prior : List Beatmap) (path : Option String) (env : PathEnv)
      (fs : List String), env.scandir = .ok fs →
      load prior path env ≠ .error ()) := by
  have hnone : rsplitLast (pyStrip s).data = none := by
    rw [rsplitLast_eq_none_iff, containsSub_eq_false_iff]
    intro hinf
    have hinf' : sepChars <:+: s.data := hinf.trans (pyStrip_data_occurs s)
    rw [← containsSub_iff_occurs] at hinf'
    have hsep : (" - " : String).data = sepChars := rfl
    unfold strIn at hs
    rw [hsep] at hs
    rw [hs] at hinf'
    exact Bool.noConfusion hinf'
  have hparse : ∃ b, _parse_beatmap s = some b ∧ b.name = "" := by
    cases hsplit : splitFirstSpace (pyStrip s).data with
    | none =>
      exact ⟨⟨pyStrip s, "", ""⟩, by simp only [_parse_beatmap, hnone, hsplit], rfl⟩
    | some pr =>
      obtain ⟨p1, p2⟩ := pr
      exact ⟨⟨⟨p1⟩, pyStrip ⟨p2⟩, ""⟩,
        by simp only [_parse_beatmap, hnone, hsplit], rfl⟩
  refine ⟨hparse, ?_, ?_⟩
  · intro prior path env fs hscan hmem hvalid
    have hfs_ne : fs.isEmpty = false :=
      List.isEmpty_eq_false.mpr (List.ne_nil_of_mem hmem)
    refine ⟨sortBeatmaps (fs.filterMap _parse_beatmap), ?_, ?_⟩
    · simp [load, hvalid, hscan, hfs_ne]
    · obtain ⟨b, hb, hbname⟩ := hparse
      refine ⟨b, hb, ?_⟩
      have hmem' : b ∈ fs.filterMap _parse_beatmap :=
        List.mem_filterMap.mpr ⟨s, hmem, hb⟩
      exact (List.mergeSort_perm _ _).mem_iff.mpr hmem'
  · intro prior path env fs hscan
    cases hv : is_valid_path path env with
    | false => simp [load, hv]
    | true => cases hfe : fs.isEmpty <;> simp [load, hv, hscan, hfe]

/-- C2 witness: `parse_no_sep_returns_record` applied to the separator-less
filename `"abc"`, also instantiating the load part at a concrete directory
listing `["abc"]`. -/
theorem parse_no_sep_returns_record_witness :
    strIn " - " "abc" = false ∧
    (∃ b, _parse_beatmap "abc" = some b ∧ b.name = "") ∧
    (∃ l, load [] (some "d") ⟨true, .ok ["abc"]⟩ = .ok l ∧
      ∃ b, _parse_beatmap "abc" = some b ∧ b ∈ l) :=
  ⟨by decide, (parse_no_sep_returns_record "abc" (by decide)).1,
    (parse_no_sep_returns_record "abc" (by decide)).2.1
      [] (some "d") ⟨true, .ok ["abc"]⟩ ["abc"] rfl (by simp) (by decide)⟩

/-- C2 counterexample: the separator-less filename `"abc"` does not make
`_parse_beatmap` fail (it returns a record, not the `None` signal), and
`load` of a directory containing only that entry stores the record in the
index instead of skipping it. -/
theorem parse_no_sep_not_skipped :
    _parse_beatmap "abc" = some ⟨"abc", "", ""⟩ ∧
    _parse_beatmap "abc" ≠ none ∧
    load [] (some "d") ⟨true, .ok ["abc"]⟩ = .ok [⟨"abc", "", ""⟩] := by
  have hp : _parse_beatmap "abc" = some ⟨"abc", "", ""⟩ := by decide
  refine ⟨hp, by decide, ?_⟩
  have hd : ("d" : String).isEmpty = false := by decide
  simp [load, is_valid_path, pathTruthy, hp, sortBeatmaps, hd]

end OsuSearcher.BeatmapManager

namespace OsuSearcher.BeatmapManager

/-- C3 (amended): keyword filtering never raises and returns exactly the
records matched by `Beatmap.__contains__`, in their original relative order
(a subsequence of the index): the lowercased keyword must occur as a
substring of the `sid` field taken in its ORIGINAL case, or of the lowercased
`artist`, or of the lowercased `name` — so matching is case-insensitive on
artist and name but not on sid. -/
theorem filter_keyword_characterization (bs : List Beatmap) (k : String) :
    filter (.str k) bs =
      .ok (bs.filter (fun b =>
        strIn (pyLower k) b.sid || strIn (pyLower k) (pyLower b.artist) ||
          strIn (pyLower k) (pyLower b.name))) ∧
    (bs.filter (fun b =>
        strIn (pyLower k) b.sid || strIn (pyLower k) (pyLower b.artist) ||
          strIn (pyLower k) (pyLower b.name))).Sublist bs := by
  refine ⟨?_, List.filter_sublist bs⟩
  induction bs with
  | nil => simp [filter]
  | cons b rest ih =>
    simp [filter, Beatmap.containsCond, Beatmap.artistLower, Beatmap.nameLower,
      ih, List.filter_cons, Bool.or_assoc]

/-- C3 counterexample: the keyword `"X"` occurs verbatim (so certainly
case-insensitively) in the id field `"X"`, yet the record is not returned:
the lowercased keyword `"x"` is compared against the original-case sid. -/
theorem filter_keyword_sid_case_counterexample :
    strIn "X" "X" = true ∧
    filter (.str "X") [⟨"X", "", ""⟩] = .ok [] :=
  ⟨by decide, by decide⟩

/-- C10: field-scoped (dict) matching lowercases the keyword but compares it
against the record's original-case field text (`getattr(self, k.value)`),
not against the lowercase caches; hence the record with artist `"Bob"` is
not returned for the criterion `{ARTIST: "Bob"}`, although the plain keyword
`"Bob"` does return it — field-scoped matching is not case-insensitive,
unlike plain keyword matching on artist and name. -/
theorem dict_matching_uses_original_case :
    (∀ (b : Beatmap) (c : ConditionType) (v : String),
      b.containsCond (.dict [(.ctype c, .str v)]) =
        .ok (strIn (pyLower v) (b.getattrField c))) ∧
    filter (.dict [(.ctype .artist, .str "Bob")]) [⟨"1", "Bob", "x"⟩] = .ok [] ∧
    filter (.str "Bob") [⟨"1", "Bob", "x"⟩] = .ok [⟨"1", "Bob", "x"⟩] := by
  refine ⟨?_, by decide, by decide⟩
  intro b c v
  simp [Beatmap.containsCond, Beatmap.entryMatches, DictKey.isBadKey,
    DictVal.isBadVal]

end OsuSearcher.BeatmapManager

namespace OsuSearcher.BeatmapManager

theorem mapped_entries_keys_ok (entries : List (ConditionType × String)) :
    (entries.map (fun e => (DictKey.ctype e.1, DictVal.str e.2))).any
      (fun e => e.1.isBadKey) = false := by
  induction entries with
  | nil => rfl
  | cons e rest ih =>
    rw [List.map_cons, List.any_cons, ih]
    rfl

theorem mapped_entries_vals_ok (entries : List (ConditionType × String)) :
    (entries.map (fun e => (DictKey.ctype e.1, DictVal.str e.2))).any
      (fun e => e.2.isBadVal) = false := by
  induction entries with
  | nil => rfl
  | cons e rest ih =>
    rw [List.map_cons, List.any_cons, ih]
    rfl

theorem mapped_entries_all_matches (b : Beatmap)
    (entries : List (ConditionType × String)) :
    (entries.map (fun e => (DictKey.ctype e.1, DictVal.str e.2))).all
      (fun e => b.entryMatches e) =
      entries.all (fun e => strIn (pyLower e.2) (b.getattrField e.1)) := by
  induction entries with
  | nil => rfl
  | cons e rest ih =>
    rw [List.map_cons, List.all_cons, ih]
    rfl

/-- C6 (amended): for a dict criterion over genuine `ConditionType` selectors
with string keywords, `filter` never raises and returns exactly the records
where, for EVERY selector present, the LOWERCASED keyword occurs as a
substring of that selector's original-case field (logical AND across
selectors), keeping the index order.  A dict containing a non-`ConditionType`
key or a non-string value, or a criterion that is neither a string nor a
dict, makes `filter` raise `TypeError` — but only when the index is
non-empty: the check sits inside `Beatmap.__contains__`, which the list
comprehension never invokes on an empty index, so `filter` then returns `[]`
without signalling.  The index itself is never modified by `filter`. -/
theorem filter_dict_semantics :
    (∀ (bs : List Beatmap) (entries : List (ConditionType × String)),
      filter (.dict (entries.map (fun e => (DictKey.ctype e.1, DictVal.str e.2)))) bs =
        .ok (bs.filter (fun b =>
          entries.all (fun e => strIn (pyLower e.2) (b.getattrField e.1))))) ∧
    (∀ (b : Beatmap) (bs : List Beatmap) (pre post : List (DictKey × DictVal))
        (v : DictVal),
      filter (.dict (pre ++ (DictKey.invalid, v) :: post)) (b :: bs) = .error ()) ∧
    (∀ (b : Beatmap) (bs : List Beatmap) (pre post : List (DictKey × DictVal))
        (k : DictKey),
      filter (.dict (pre ++ (k, DictVal.invalid) :: post)) (b :: bs) = .error ()) ∧
    (∀ (b : Beatmap) (bs : List Beatmap), filter .other (b :: bs) = .error ()) ∧
    (∀ condition : Condition, filter condition ([] : List Beatmap) = .ok []) := by
  refine ⟨?_, ?_, ?_, ?_, ?_⟩
  · intro bs entries
    induction bs with
    | nil => simp [filter]
    | cons b rest ih =>
      simp [filter, Beatmap.containsCond, mapped_entries_keys_ok,
        mapped_entries_vals_ok, mapped_entries_all_matches, ih, List.filter_cons]
  · intro b bs pre post v
    simp [filter, Beatmap.containsCond, List.any_append, DictKey.isBadKey]
  · intro b bs pre post k
    cases hk : (pre ++ (k, DictVal.invalid) :: post).any (fun e => e.1.isBadKey) with
    | true => simp [filter, Beatmap.containsCond, hk]
    | false =>
      simp [filter, Beatmap.containsCond, hk, List.any_append, DictVal.isBadVal]
  · intro b bs
    simp [filter, Beatmap.containsCond]
  · intro condition
    simp [filter]

/-- C6 counterexample: the selector keyword `"Bob"` occurs verbatim in the
artist field `"Bob"`, yet the record is not returned (the lowercased keyword
`"bob"` is compared against the original-case field), refuting the claimed
match semantics; and a dict with an unrecognized selector key raises no
error on an empty index, refuting the unconditional invalid-argument
signal. -/
theorem filter_dict_counterexample :
    (strIn "Bob" "Bob" = true ∧
      filter (.dict [(.ctype .artist, .str "Bob")]) [⟨"1", "Bob", "x"⟩] = .ok []) ∧
    filter (.dict [(.invalid, .str "x")]) ([] : List Beatmap) = .ok [] :=
  ⟨⟨by decide, by decide⟩, by decide⟩

end OsuSearcher.BeatmapManager

namespace OsuSearcher.BeatmapManager

theorem dedupBySid_sublist (bs : List Beatmap) :
    ∀ seen, (dedupBySid seen bs).Sublist bs := by
  induction bs with
  | nil => intro seen; simp [dedupBySid]
  | cons b rest ih =>
    intro seen
    by_cases hb : b.sid ∈ seen
    · simp only [dedupBySid, if_pos hb]
      exact (ih seen).cons b
    · simp only [dedupBySid, if_neg hb]
      exact (ih (b.sid :: seen)).cons₂ b

theorem dedupBySid_filter_sid (bs : List Beatmap) :
    ∀ (seen : List String) (s : String),
      (dedupBySid seen bs).filter (fun b => b.sid = s) =
        if s ∈ seen then [] else (bs.find? (fun b => b.sid = s)).toList := by
  induction bs with
  | nil =>
    intro seen s
    simp [dedupBySid]
  | cons b rest ih =>
    intro seen s
    by_cases hb : b.sid ∈ seen
    · by_cases hs : b.sid = s
      · have hss : s ∈ seen := hs ▸ hb
        simp [dedupBySid, hb, ih, hss, List.find?_cons, hs]
      · simp [dedupBySid, hb, ih, List.find?_cons, hs]
    · by_cases hs : b.sid = s
      · have hss : s ∉ seen := hs ▸ hb
        simp [dedupBySid, hb, ih, hss, List.filter_cons, List.find?_cons, hs]
      · have hmem : (s ∈ b.sid :: seen) ↔ (s ∈ seen) := by
          constructor
          · intro h
            rcases List.mem_cons.mp h with h1 | h2
            · exact absurd h1.symm hs
            · exact h2
          · intro h
            exact List.mem_cons_of_mem _ h
        simp [dedupBySid, hb, ih, List.filter_cons, List.find?_cons, hs, hmem]

end OsuSearcher.BeatmapManager

namespace OsuSearcher.BeatmapManager

/-- C4 (amended): when every record's sid is accepted by Python `int(...)`,
`check` returns (without mutating anything) exactly one representative per
sid value occurring more than once in the index; the representative of a
duplicated sid is the first-seen record of that sid, the result is a
subsequence of the index (so representatives appear in first-seen order),
and no record of a non-duplicated sid appears.  When some sid is not an
integer literal the call raises instead (see the C9 theorem). -/
theorem check_duplicates (bs : List Beatmap)
    (h : ∀ b ∈ bs, pyIntParses b.sid = true) :
    ∃ l, check bs = .ok l ∧ l.Sublist bs ∧
      (∀ s : String, 1 < countSid bs s →
        l.filter (fun b => b.sid = s) = (bs.find? (fun b => b.sid = s)).toList) ∧
      (∀ s : String, countSid bs s ≤ 1 →
        l.filter (fun b => b.sid = s) = []) := by
  have hall : bs.all (fun b => pyIntParses b.sid) = true := List.all_eq_true.mpr h
  refine ⟨(dedupBySid [] bs).filter (fun b => 1 < countSid bs b.sid),
    ?_, ?_, ?_, ?_⟩
  · simp [check, hall]
  · exact (List.filter_sublist _).trans (dedupBySid_sublist bs [])
  · intro s hcount
    rw [List.filter_filter]
    have hcongr : ∀ b ∈ dedupBySid [] bs,
        (decide (b.sid = s) && decide (1 < countSid bs b.sid)) =
          decide (b.sid = s) := by
      intro b _
      by_cases hbs : b.sid = s
      · simp [hbs, hcount]
      · simp [hbs]
    rw [List.filter_congr hcongr]
    have := dedupBySid_filter_sid bs [] s
    simpa using this
  · intro s hcount
    rw [List.filter_filter]
    rw [List.filter_eq_nil_iff]
    intro b _
    by_cases hbs : b.sid = s
    · have : ¬ 1 < countSid bs s := not_lt.mpr hcount
      simp [hbs, this]
    · simp [hbs]

/-- C4 witness: `check_duplicates` applied to the index
`[("1","A","X"), ("1","B","Y"), ("2","C","Z")]`, whose sids all parse as
integers. -/
theorem check_duplicates_witness :
    (∀ b ∈ [(⟨"1", "A", "X"⟩ : Beatmap), ⟨"1", "B", "Y"⟩, ⟨"2", "C", "Z"⟩],
      pyIntParses b.sid = true) ∧
    (∃ l, check [(⟨"1", "A", "X"⟩ : Beatmap), ⟨"1", "B", "Y"⟩, ⟨"2", "C", "Z"⟩]
        = .ok l ∧
      l.Sublist [(⟨"1", "A", "X"⟩ : Beatmap), ⟨"1", "B", "Y"⟩, ⟨"2", "C", "Z"⟩] ∧
      (∀ s : String,
        1 < countSid [(⟨"1", "A", "X"⟩ : Beatmap), ⟨"1", "B", "Y"⟩, ⟨"2", "C", "Z"⟩] s →
        l.filter (fun b => b.sid = s) =
          (([(⟨"1", "A", "X"⟩ : Beatmap), ⟨"1", "B", "Y"⟩, ⟨"2", "C", "Z"⟩].find?
            (fun b => b.sid = s))).toList) ∧
      (∀ s : String,
        countSid [(⟨"1", "A", "X"⟩ : Beatmap), ⟨"1", "B", "Y"⟩, ⟨"2", "C", "Z"⟩] s ≤ 1 →
        l.filter (fun b => b.sid = s) = [])) :=
  ⟨by decide, check_duplicates
    [(⟨"1", "A", "X"⟩ : Beatmap), ⟨"1", "B", "Y"⟩, ⟨"2", "C", "Z"⟩] (by decide)⟩

/-- C4 counterexample: an index whose (duplicated) sid `"abc"` is not an
integer literal makes `check` raise `ValueError` while hashing the records,
instead of returning the claimed one-representative list. -/
theorem check_non_integer_sid_counterexample :
    check [⟨"abc", "a", "x"⟩, ⟨"abc", "b", "y"⟩] = .error () ∧
    check [⟨"abc", "a", "x"⟩, ⟨"abc", "b", "y"⟩] ≠ .ok [⟨"abc", "a", "x"⟩] :=
  ⟨by decide, by decide⟩

/-- C9: building the `Counter` inside `check` hashes every record via
`hash(int(self.sid))`, so `check` raises `ValueError` exactly when some
record's sid string is not accepted by Python `int(...)`, and returns
normally only when every sid parses; in particular the index loaded from
the single filename `"abc creator - title"` (sid `"abc"`) makes `check`
raise. -/
theorem check_errors_iff_bad_sid :
    (∀ bs : List Beatmap,
      check bs = .error () ↔ ∃ b ∈ bs, pyIntParses b.sid = false) ∧
    check (["abc creator - title"].filterMap _parse_beatmap) = .error () := by
  constructor
  · intro bs
    have hstep : check bs = .error () ↔
        bs.all (fun b => pyIntParses b.sid) = false := by
      unfold check
      split <;> rename_i hall
      · simp [hall]
      · simp at hall
        simp [hall]
    rw [hstep, List.all_eq_false]
    simp
  · decide

end OsuSearcher.BeatmapManager

namespace OsuSearcher.BeatmapManager

theorem containsSub_nil (l : List Char) : containsSub [] l = true := by
  cases l <;> rfl

theorem filter_empty_keyword (l : List Beatmap) : filter (.str "") l = .ok l := by
  induction l with
  | nil => rfl
  | cons b rest ih =>
    have h0 : (pyLower "").data = [] := rfl
    have hc : b.containsCond (.str "") = .ok true := by
      simp [Beatmap.containsCond, strIn, h0, containsSub_nil]
    simp [filter, hc, ih]

theorem beatmapLe_trans (a b c : Beatmap) (hab : beatmapLe a b = true)
    (hbc : beatmapLe b c = true) : beatmapLe a c = true := by
  simp only [beatmapLe, Bool.not_eq_true', decide_eq_false_iff_not, not_lt] at *
  exact le_trans hab hbc

theorem beatmapLe_total (a b : Beatmap) :
    (beatmapLe a b || beatmapLe b a) = true := by
  simp only [beatmapLe, Bool.or_eq_true, Bool.not_eq_true',
    decide_eq_false_iff_not, not_lt]
  exact le_total a.name b.name

/-- C5 (amended): after a `load` from a valid path with a NON-EMPTY listing,
`filter("")` returns the whole index unchanged, and that index is exactly
the parsed records of the directory snapshot (as a permutation) ordered by
`Beatmap.__lt__`, i.e. sorted solely by the `name`("title") field under the
case-sensitive lexicographic string order; for such snapshots the result is
a pure function of the snapshot, hence deterministic.  An EMPTY snapshot is
excluded: there `load` returns early and the round trip reproduces the prior
index instead of the snapshot (see the counterexample). -/
theorem load_then_filter_empty (prior : List Beatmap) (path : Option String)
    (env : PathEnv) (fs : List String)
    (hvalid : is_valid_path path env = true)
    (hscan : env.scandir = .ok fs) (hne : fs ≠ []) :
    ∃ l, load prior path env = .ok l ∧
      filter (.str "") l = .ok l ∧
      l.Pairwise (fun a b => ¬ b.name < a.name) ∧
      l.Perm (fs.filterMap _parse_beatmap) := by
  have hfe : fs.isEmpty = false := List.isEmpty_eq_false.mpr hne
  refine ⟨sortBeatmaps (fs.filterMap _parse_beatmap), ?_,
    filter_empty_keyword _, ?_, ?_⟩
  · simp [load, hvalid, hscan, hfe]
  · have hp := List.sorted_mergeSort beatmapLe_trans beatmapLe_total
      (fs.filterMap _parse_beatmap)
    simp only [sortBeatmaps]
    refine hp.imp ?_
    intro a b hab
    simp only [beatmapLe, Bool.not_eq_true', decide_eq_false_iff_not] at hab
    exact hab
  · exact List.mergeSort_perm _ _

/-- C5 witness: `load_then_filter_empty` applied to the snapshot
`["2 b - B", "1 a - A"]` of a valid directory. -/
theorem load_then_filter_empty_witness :
    is_valid_path (some "d") ⟨true, .ok ["2 b - B", "1 a - A"]⟩ = true ∧
    (["2 b - B", "1 a - A"] : List String) ≠ [] ∧
    (∃ l, load [] (some "d") ⟨true, .ok ["2 b - B", "1 a - A"]⟩ = .ok l ∧
      filter (.str "") l = .ok l ∧
      l.Pairwise (fun a b => ¬ b.name < a.name) ∧
      l.Perm (["2 b - B", "1 a - A"].filterMap _parse_beatmap)) :=
  ⟨by decide, by simp,
    load_then_filter_empty [] (some "d") ⟨true, .ok ["2 b - B", "1 a - A"]⟩
      ["2 b - B", "1 a - A"] (by decide) rfl (by simp)⟩

/-- C5 counterexample: for the EMPTY directory snapshot the round trip
`load` then `filter("")` is not determined by the snapshot: from the prior
index `[("7","p","P")]` it returns that prior record — which is not parsed
from the snapshot, whose parse set is empty — while from the prior index
`[]` the same snapshot yields `[]`, so the claim's universally quantified
determinism and "returns all loaded records" both fail at this input. -/
theorem load_filter_empty_snapshot_counterexample :
    load [⟨"7", "p", "P"⟩] (some "e") ⟨true, .ok []⟩ = .ok [⟨"7", "p", "P"⟩] ∧
    filter (.str "") [⟨"7", "p", "P"⟩] = .ok [⟨"7", "p", "P"⟩] ∧
    load [] (some "e") ⟨true, .ok []⟩ = .ok [] ∧
    ([⟨"7", "p", "P"⟩] : List Beatmap) ≠ [] ∧
    ([] : List String).filterMap _parse_beatmap = [] :=
  ⟨by decide, by decide, by decide, by decide, by decide⟩

/-- C7 (amended): for every path rejected by `is_valid_path` — Python-falsy
(`None` or `""`) or not an existing directory per `os.path.isdir` — `load`
raises nothing and returns with the index exactly as before.  An existing
directory whose listing cannot be read is NOT covered: `os.scandir`'s
exception propagates out of `load` (see the counterexample). -/
theorem load_invalid_path_noop (prior : List Beatmap) (path : Option String)
    (env : PathEnv) (h : is_valid_path path env = false) :
    load prior path env = .ok prior := by
  simp [load, h]

/-- C7 witness: `load_invalid_path_noop` applied to `path = None` over a
non-empty prior index. -/
theorem load_invalid_path_noop_witness :
    is_valid_path none ⟨false, .ok []⟩ = false ∧
    load [⟨"1", "a", "b"⟩] none ⟨false, .ok []⟩ = .ok [⟨"1", "a", "b"⟩] :=
  ⟨by decide,
    load_invalid_path_noop [⟨"1", "a", "b"⟩] none ⟨false, .ok []⟩ (by decide)⟩

/-- C7 counterexample: a path that passes `os.path.isdir` but whose listing
raises (an existing, unreadable directory — not an existing READABLE
directory) makes `load` propagate the error: the call is neither silent nor
a no-op, refuting the claim's coverage of unreadable directories. -/
theorem load_unreadable_dir_raises :
    is_valid_path (some "d") ⟨true, .error ()⟩ = true ∧
    load [] (some "d") ⟨true, .error ()⟩ = .error () ∧
    load [] (some "d") ⟨true, .error ()⟩ ≠ .ok [] :=
  ⟨by decide, by decide, by decide⟩

/-- C8 (amended): for every existing readable directory with a NON-EMPTY
listing, `load` fully replaces the prior contents: the resulting index is
exactly the sorted parses of the new listing, independent of the prior
index.  For an empty listing `load` returns early and the prior records
survive (see the counterexample). -/
theorem load_replaces_on_nonempty_listing (prior prior2 : List Beatmap)
    (path : Option String) (env : PathEnv) (fs : List String)
    (hvalid : is_valid_path path env = true)
    (hscan : env.scandir = .ok fs) (hne : fs ≠ []) :
    load prior path env = .ok (sortBeatmaps (fs.filterMap _parse_beatmap)) ∧
    load prior path env = load prior2 path env := by
  have hfe : fs.isEmpty = false := List.isEmpty_eq_false.mpr hne
  constructor <;> simp [load, hvalid, hscan, hfe]

/-- C8 witness: `load_replaces_on_nonempty_listing` applied to the listing
`["1 a - A"]` over two different prior indices. -/
theorem load_replaces_on_nonempty_listing_witness :
    is_valid_path (some "d") ⟨true, .ok ["1 a - A"]⟩ = true ∧
    (["1 a - A"] : List String) ≠ [] ∧
    (load [⟨"9", "z", "Z"⟩] (some "d") ⟨true, .ok ["1 a - A"]⟩ =
      .ok (sortBeatmaps (["1 a - A"].filterMap _parse_beatmap)) ∧
    load [⟨"9", "z", "Z"⟩] (some "d") ⟨true, .ok ["1 a - A"]⟩ =
      load [] (some "d") ⟨true, .ok ["1 a - A"]⟩) :=
  ⟨by decide, by simp,
    load_replaces_on_nonempty_listing [⟨"9", "z", "Z"⟩] [] (some "d")
      ⟨true, .ok ["1 a - A"]⟩ ["1 a - A"] (by decide) rfl (by simp)⟩

/-- C8 counterexample: loading an existing readable directory WITH NO
ENTRIES does not replace the index: `load` returns before the assignment
and the record from the previous load survives, refuting full replacement
for empty directories. -/
theorem load_empty_dir_keeps_prior :
    is_valid_path (some "d") ⟨true, .ok []⟩ = true ∧
    load [⟨"9", "z", "Z"⟩] (some "d") ⟨true, .ok []⟩ = .ok [⟨"9", "z", "Z"⟩] ∧
    load [⟨"9", "z", "Z"⟩] (some "d") ⟨true, .ok []⟩ ≠ .ok [] :=
  ⟨by decide, by decide, by decide⟩

end OsuSearcher.BeatmapManager
